import Mathlib

/-!
Verification of the rwsdk-realtime-presence room actors.

This file shallowly embeds the two durable-object room actors of the
repository:

* `PresenceDurableObject` (src/durableObjects/presenceDurableObject.ts,
  modelled in namespace `PresenceDO`): presence map, connection binding,
  reconnection grace register, stale sweep, broadcast throttling.
* `GameSyncPresenceDurableObject`
  (src/durableObjects/gameSyncPresenceDurableObject.ts, modelled in
  namespace `GameSyncDO`): game state map, mouse-move delta compression,
  join handling, stale cleanup, broadcast throttling.

JavaScript `Map` objects are modelled as association lists keeping JS
insertion-order semantics (`mapSet` updates in place or appends, `mapGet`
reads the first binding, `mapDel` removes the key).  Timestamps are `Nat`
milliseconds; `Date.now()` becomes an explicit `now` argument carried by
each event.  `setTimeout` callbacks scheduled by the disconnect handler
become explicit timer events that may only fire at or after their
scheduled time.  The random username generator (an external npm package)
is an oracle parameter `gen : Nat → String`; the memoisation around it is
modelled faithfully.

Sends are assumed to succeed: a `broadcast` output stands for one flush
delivered to every bound connection, so the source's per-connection
failure handling (unbinding a socket whose send throws) is not modelled —
no claim under verification concerns failed sends.
-/

namespace RwsdkPresence

/-! ### Association-list model of JS `Map` -/

def mapGet {α : Type} {β : Type} [DecidableEq α] (k : α) : List (α × β) → Option β
  | [] => none
  | e :: rest => if e.1 = k then some e.2 else mapGet k rest

def mapSet {α : Type} {β : Type} [DecidableEq α] (k : α) (v : β) : List (α × β) → List (α × β)
  | [] => [(k, v)]
  | e :: rest => if e.1 = k then (k, v) :: rest else e :: mapSet k v rest

def mapDel {α : Type} {β : Type} [DecidableEq α] (k : α) (l : List (α × β)) : List (α × β) :=
  l.filter (fun e => decide (e.1 ≠ k))

/-! ### Session-id extraction (the two regexes of the source)

`PresenceDurableObject.extractSessionInfo` matches
`^anon_session_(\d+_[a-z0-9]+)_tab_(\d+_[a-z0-9]+)$`;
`GameSyncPresenceDurableObject.extractSessionId` searches for
`session_(\d+_[a-z0-9]+)` anywhere in the string.  Both regexes are
deterministic (the character classes exclude the separators that follow
them), so greedy span-based parsers compute the same result. -/

def isLowerAlnum (c : Char) : Bool :=
  c.isDigit || (decide ('a' ≤ c) && decide (c ≤ 'z'))

/-- Parses `\d+_[a-z0-9]+_tab_\d+_[a-z0-9]+` at end of string, returning the
session id and tab id captures. -/
def parseSessionTail (cs : List Char) : Option (String × String) :=
  let d1 := cs.takeWhile Char.isDigit
  let r1 := cs.dropWhile Char.isDigit
  if d1.isEmpty then none else
  match r1 with
  | '_' :: r2 =>
    let a1 := r2.takeWhile isLowerAlnum
    let r3 := r2.dropWhile isLowerAlnum
    if a1.isEmpty then none else
    match r3 with
    | '_' :: 't' :: 'a' :: 'b' :: '_' :: r4 =>
      let d2 := r4.takeWhile Char.isDigit
      let r5 := r4.dropWhile Char.isDigit
      if d2.isEmpty then none else
      match r5 with
      | '_' :: r6 =>
        let a2 := r6.takeWhile isLowerAlnum
        let r7 := r6.dropWhile isLowerAlnum
        if a2.isEmpty || !r7.isEmpty then none
        else some (String.mk (d1 ++ '_' :: a1), String.mk (d2 ++ '_' :: a2))
      | _ => none
    | _ => none
  | _ => none

/-- `PresenceDurableObject.extractSessionInfo` -/
def extractSessionInfo (userId : String) : Option (String × String) :=
  match userId.toList with
  | 'a' :: 'n' :: 'o' :: 'n' :: '_' :: 's' :: 'e' :: 's' :: 's' :: 'i' :: 'o' :: 'n' :: '_' :: rest =>
    parseSessionTail rest
  | _ => none

/-- Parses `\d+_[a-z0-9]+` at the current position (rest of string unconstrained). -/
def parseGameSession (cs : List Char) : Option String :=
  let d := cs.takeWhile Char.isDigit
  let r := cs.dropWhile Char.isDigit
  if d.isEmpty then none else
  match r with
  | '_' :: r2 =>
    let a := r2.takeWhile isLowerAlnum
    if a.isEmpty then none else some (String.mk (d ++ '_' :: a))
  | _ => none

def stripSessionTag : List Char → Option (List Char)
  | 's' :: 'e' :: 's' :: 's' :: 'i' :: 'o' :: 'n' :: '_' :: t => some t
  | _ => none

def findSessionMatch : List Char → Option String
  | [] => none
  | c :: rest =>
    match stripSessionTag (c :: rest) with
    | some tail =>
      match parseGameSession tail with
      | some sid => some sid
      | none => findSessionMatch rest
    | none => findSessionMatch rest

/-- `GameSyncPresenceDurableObject.extractSessionId` -/
def extractSessionId (userId : String) : Option String :=
  findSessionMatch userId.toList

/-- JS `x || y` on numbers (`0` is falsy). -/
def jsOr (a b : Nat) : Nat := if a = 0 then b else a

namespace PresenceDO

/-! ### PresenceDurableObject (src/durableObjects/presenceDurableObject.ts) -/

/-- `PRESENCE_SERVER_SETTINGS.MIN_BROADCAST_INTERVAL` (100 ms). -/
def MIN_BROADCAST_INTERVAL : Nat := 100

/-- `PRESENCE_SERVER_SETTINGS.HEARTBEAT_TIMEOUT` (60 s). -/
def HEARTBEAT_TIMEOUT : Nat := 60000

/-- `PRESENCE_SERVER_SETTINGS.RECONNECT_GRACE_PERIOD` (10 s). -/
def RECONNECT_GRACE_PERIOD : Nat := 10000

/-- `PRESENCE_SERVER_SETTINGS.MAX_CONNECTIONS_PER_ROOM` (100). -/
def MAX_CONNECTIONS_PER_ROOM : Nat := 100

/-- `interface UserPresence`.  The optional JS boolean `isReconnecting`
(`undefined` is falsy) is modelled as `Bool`. -/
structure UserPresence where
  userId : String
  username : String
  joinedAt : Nat
  lastSeen : Nat
  sessionId : Option String
  isReconnecting : Bool
deriving Repr, DecidableEq

/-- `interface PendingReconnect` -/
structure PendingReconnect where
  userId : String
  username : String
  expiresAt : Nat
deriving Repr, DecidableEq

/-- The mutable fields of `PresenceDurableObject`.  `graceTimers` records the
`setTimeout` callbacks scheduled by `handleUserDisconnect` as
(scheduled fire time, userId) pairs; `nameCtr` counts invocations of the
external random username generator. -/
structure PState where
  presence : List (String × UserPresence)
  wsToUser : List (Nat × String)
  usernames : List (String × String)
  pendingReconnects : List (String × PendingReconnect)
  lastBroadcast : Nat
  graceTimers : List (Nat × String)
  nameCtr : Nat
deriving Repr, DecidableEq

def pInit : PState := ⟨[], [], [], [], 0, [], 0⟩

/-- Messages pushed to connections.  `broadcast` stands for one
`broadcastPresenceUpdate` flush to every bound connection; `direct` is the
single-connection `sendPresenceToConnection`. -/
inductive POut where
  | broadcast (payload : List UserPresence)
  | direct (conn : Nat) (payload : List UserPresence)
deriving Repr, DecidableEq

def POut.payload : POut → List UserPresence
  | .broadcast l => l
  | .direct _ l => l

def POut.isBroadcast : POut → Bool
  | .broadcast _ => true
  | .direct _ _ => false

/-- The filtered user list that both `broadcastPresenceUpdate` and the GET
branch of `handlePresenceAPI` build:
`Array.from(this.presence.values()).filter(p => !p.isReconnecting)`. -/
def presenceList (s : PState) : List UserPresence :=
  (s.presence.map Prod.snd).filter (fun p => !p.isReconnecting)

/-- GET `/__realtime/presence` (`handlePresenceAPI`, read-only snapshot). -/
def getSnapshot (s : PState) : List UserPresence :=
  (s.presence.map Prod.snd).filter (fun p => !p.isReconnecting)

/-- `broadcastPresenceUpdate`: drops the flush when the minimum
inter-broadcast interval has not elapsed, otherwise stamps
`lastBroadcast` and sends the filtered list to every bound connection. -/
def broadcastPresenceUpdate (now : Nat) (s : PState) : PState × List POut :=
  if now - s.lastBroadcast < MIN_BROADCAST_INTERVAL then (s, [])
  else ({ s with lastBroadcast := now }, [.broadcast (presenceList s)])

/-- `getOrGenerateUsername`: memoised random two-word name keyed by the
session id when the userId carries one, else by the raw userId. -/
def getOrGenerateUsername (gen : Nat → String) (userId : String) (s : PState) :
    String × PState :=
  let sessionInfo := extractSessionInfo userId
  let cacheKey := match sessionInfo with
    | some si => "session_" ++ si.1
    | none => userId
  match mapGet cacheKey s.usernames with
  | some n => (n, s)
  | none =>
    let n := gen s.nameCtr
    (n, { s with usernames := mapSet cacheKey n s.usernames, nameCtr := s.nameCtr + 1 })

/-- `addUserPresence` (the `join` action).  Branch one restores a user who is
in pending-reconnect state; branch two removes same-session duplicates and
inserts/refreshes the entry.  `username || ...` treats the empty string as
falsy, and `existingPresence?.joinedAt || now` is `jsOr`. -/
def addUserPresence (gen : Nat → String) (now : Nat) (userId : String)
    (username : Option String) (s : PState) : UserPresence × PState × List POut :=
  match mapGet userId s.pendingReconnects with
  | some pending =>
    let s := { s with pendingReconnects := mapDel userId s.pendingReconnects }
    let existingPresence := mapGet userId s.presence
    let userPresence : UserPresence :=
      { userId := userId
        username := pending.username
        joinedAt := match existingPresence with
          | some e => jsOr e.joinedAt now
          | none => now
        lastSeen := now
        sessionId := none
        isReconnecting := false }
    let s := { s with presence := mapSet userId userPresence s.presence }
    let (s, outs) := broadcastPresenceUpdate now s
    (userPresence, s, outs)
  | none =>
    let existing := mapGet userId s.presence
    let sessionInfo := extractSessionInfo userId
    let s := match sessionInfo with
      | some si =>
        { s with presence := s.presence.filter (fun e =>
            decide (e.1 = userId) ||
              !(match extractSessionInfo e.1 with
                | some esi => decide (esi.1 = si.1)
                | none => false)) }
      | none => s
    let (displayName, s) := match username with
      | some u => if u = "" then getOrGenerateUsername gen userId s else (u, s)
      | none => getOrGenerateUsername gen userId s
    let userPresence : UserPresence :=
      { userId := userId
        username := displayName
        joinedAt := match existing with
          | some e => jsOr e.joinedAt now
          | none => now
        lastSeen := now
        sessionId := sessionInfo.map Prod.fst
        isReconnecting := false }
    let s := { s with presence := mapSet userId userPresence s.presence }
    let (s, outs) := broadcastPresenceUpdate now s
    (userPresence, s, outs)

/-- `handleUserDisconnect`: moves the user into the grace register, marks the
presence entry `isReconnecting`, and schedules the grace-expiry
`setTimeout`.  No broadcast is sent here. -/
def handleUserDisconnect (now : Nat) (userId : String) (s : PState) : PState :=
  match mapGet userId s.presence with
  | none => s
  | some user =>
    let reconnectEntry : PendingReconnect :=
      { userId := userId, username := user.username
        expiresAt := now + RECONNECT_GRACE_PERIOD }
    { s with
      pendingReconnects := mapSet userId reconnectEntry s.pendingReconnects
      presence := mapSet userId { user with isReconnecting := true } s.presence
      graceTimers := s.graceTimers ++ [(now + RECONNECT_GRACE_PERIOD, userId)] }

/-- The `close`/`error` listener installed on an accepted WebSocket. -/
def handleClose (now : Nat) (conn : Nat) (s : PState) : PState :=
  match mapGet conn s.wsToUser with
  | none => s
  | some userId =>
    let s := handleUserDisconnect now userId s
    { s with wsToUser := mapDel conn s.wsToUser }

/-- The `presence_heartbeat` branch of `webSocketMessage`: refresh liveness,
clear the reconnecting flag, bind the connection, cancel the
pending-reconnect entry (broadcasting when one was cancelled), and send the
current list back on this connection. -/
def handleHeartbeat (now : Nat) (conn : Nat) (userId : String) (s : PState) :
    PState × List POut :=
  match mapGet userId s.presence with
  | none => (s, [])
  | some user =>
    let user := { user with lastSeen := now, isReconnecting := false }
    let s := { s with
      presence := mapSet userId user s.presence
      wsToUser := mapSet conn userId s.wsToUser }
    let (s, outs) :=
      if (mapGet userId s.pendingReconnects).isSome then
        let s := { s with pendingReconnects := mapDel userId s.pendingReconnects }
        broadcastPresenceUpdate now s
      else (s, [])
    (s, outs ++ [.direct conn (presenceList s)])

/-- Removes the first grace timer for `userId` whose scheduled time has been
reached; `none` when no such timer is due. -/
def removeEligibleTimer (userId : String) (now : Nat) :
    List (Nat × String) → Option (List (Nat × String))
  | [] => none
  | t :: rest =>
    if t.2 = userId ∧ t.1 ≤ now then some rest
    else match removeEligibleTimer userId now rest with
      | some rest' => some (t :: rest')
      | none => none

/-- The `setTimeout` callback of `handleUserDisconnect`: if the user is still
pending, remove them from the grace register and the presence store and
broadcast. -/
def fireGraceTimer (now : Nat) (userId : String) (s : PState) : PState × List POut :=
  match removeEligibleTimer userId now s.graceTimers with
  | none => (s, [])
  | some timers' =>
    let s := { s with graceTimers := timers' }
    if (mapGet userId s.pendingReconnects).isSome then
      let s := { s with
        pendingReconnects := mapDel userId s.pendingReconnects
        presence := mapDel userId s.presence }
      broadcastPresenceUpdate now s
    else (s, [])

/-- One iteration of the `cleanupStaleConnections` loop body. -/
def staleStep (now : Nat) (s : PState) (userId : String) : PState :=
  match mapGet userId s.presence with
  | none => s
  | some p =>
    if p.isReconnecting then s
    else if HEARTBEAT_TIMEOUT < now - p.lastSeen then handleUserDisconnect now userId s
    else s

/-- `cleanupStaleConnections`: users (not already in grace) whose `lastSeen`
exceeds the heartbeat timeout are handed to `handleUserDisconnect`. -/
def cleanupStaleConnections (now : Nat) (s : PState) : PState :=
  (s.presence.map Prod.fst).foldl (staleStep now) s

/-- One iteration of the `cleanupPendingReconnects` loop body. -/
def pendingStep (now : Nat) (s : PState) (userId : String) : PState :=
  match mapGet userId s.pendingReconnects with
  | none => s
  | some pending =>
    if pending.expiresAt < now then
      { s with
        pendingReconnects := mapDel userId s.pendingReconnects
        presence := mapDel userId s.presence }
    else s

/-- `cleanupPendingReconnects`: entries past `expiresAt` are deleted from
both the grace register and the presence store.  No broadcast is issued. -/
def cleanupPendingReconnects (now : Nat) (s : PState) : PState :=
  (s.pendingReconnects.map Prod.fst).foldl (pendingStep now) s

/-- The WebSocket-upgrade capacity check in `fetch`: at or above the cap the
new socket is closed with code 1008 "Room at capacity" and nothing in the
room state changes. -/
inductive UpgradeOutcome where
  | accepted
  | rejectedCapacity
deriving Repr, DecidableEq

def upgradeConnection (s : PState) : PState × UpgradeOutcome :=
  if MAX_CONNECTIONS_PER_ROOM ≤ s.wsToUser.length then (s, .rejectedCapacity)
  else (s, .accepted)

/-- The serialized per-room event stream: HTTP-style calls, inbound socket
messages, socket closes, the periodic sweep, and grace-timer firings. -/
inductive PEvent where
  | join (now : Nat) (userId : String) (username : Option String)
  | leave (now : Nat) (userId : String)
  | heartbeat (now : Nat) (conn : Nat) (userId : String)
  | close (now : Nat) (conn : Nat)
  | sweep (now : Nat)
  | timer (now : Nat) (userId : String)
deriving Repr, DecidableEq

def eventTime : PEvent → Nat
  | .join n _ _ => n
  | .leave n _ => n
  | .heartbeat n _ _ => n
  | .close n _ => n
  | .sweep n => n
  | .timer n _ => n

/-- One step of the actor.  The sweep interval callback runs
`cleanupStaleConnections` and then `cleanupPendingReconnects`. -/
def pstep (gen : Nat → String) (s : PState) : PEvent → PState × List POut
  | .join now userId username =>
    let (_, s', outs) := addUserPresence gen now userId username s
    (s', outs)
  | .leave now userId => (handleUserDisconnect now userId s, [])
  | .heartbeat now conn userId => handleHeartbeat now conn userId s
  | .close now conn => (handleClose now conn s, [])
  | .sweep now => (cleanupPendingReconnects now (cleanupStaleConnections now s), [])
  | .timer now userId => fireGraceTimer now userId s

/-- Runs a trace, accumulating all outbound messages in order. -/
def runTrace (gen : Nat → String) (s : PState) : List PEvent → PState × List POut
  | [] => (s, [])
  | e :: es =>
    let (s', outs) := pstep gen s e
    let (s'', rest) := runTrace gen s' es
    (s'', outs ++ rest)

/-- Times of the events whose processing actually emitted a broadcast. -/
def traceBroadcastTimes (gen : Nat → String) (s : PState) : List PEvent → List Nat
  | [] => []
  | e :: es =>
    let (s', outs) := pstep gen s e
    (if outs.any POut.isBroadcast then [eventTime e] else []) ++
      traceBroadcastTimes gen s' es

end PresenceDO

namespace GameSyncDO

/-! ### GameSyncPresenceDurableObject
(src/durableObjects/gameSyncPresenceDurableObject.ts) -/

/-- `GAME_SYNC_CONFIG.MOUSE_THROTTLE_DISTANCE` (5 px). -/
def MOUSE_THROTTLE_DISTANCE : ℚ := 5

/-- `GAME_SYNC_CONFIG.PRESENCE_STALE_THRESHOLD` (20 s). -/
def PRESENCE_STALE_THRESHOLD : Nat := 20000

/-- `GAME_SYNC_CONFIG.MAX_CONNECTIONS_PER_ROOM` (50). -/
def MAX_CONNECTIONS_PER_ROOM : Nat := 50

/-- `GAME_SYNC_CONFIG.MIN_BROADCAST_INTERVAL` (8 ms). -/
def MIN_BROADCAST_INTERVAL : Nat := 8

/-- `GAME_SYNC_CONFIG.CURSOR_TIMEOUT` (3 s). -/
def CURSOR_TIMEOUT : Nat := 3000

/-- `GAME_SYNC_CONFIG.POSITION_PRECISION` (1 decimal place). -/
def POSITION_PRECISION : Nat := 1

/-- `GAME_SYNC_CONFIG.ENABLE_DELTA_COMPRESSION`. -/
def ENABLE_DELTA_COMPRESSION : Bool := true

/-- `Math.round(v * 10^p) / 10^p` with `p = POSITION_PRECISION`; JS
`Math.round` rounds half toward +∞, as does Mathlib's `round`. -/
def roundToPrecision (v : ℚ) : ℚ :=
  ((round (v * (10 : ℚ) ^ POSITION_PRECISION) : ℤ) : ℚ) / (10 : ℚ) ^ POSITION_PRECISION

/-- `interface MousePosition` (JS numbers as exact rationals). -/
structure MousePosition where
  x : ℚ
  y : ℚ
  timestamp : Nat
deriving Repr, DecidableEq

/-- `interface UserGameState`.  `gameData` (a free-form record only touched
by `handleGameAction`, which no claim exercises) is modelled as a string
association list. -/
structure UserGameState where
  userId : String
  username : String
  joinedAt : Nat
  lastSeen : Nat
  isActive : Bool
  mousePosition : Option MousePosition
  lastMouseUpdate : Nat
  cursorColor : String
  score : Option ℚ
  level : Option ℚ
  gameData : List (String × String)
  sessionId : Option String
  connectionId : String
deriving Repr, DecidableEq

/-- The `cursorColors` palette. -/
def cursorColors : List String :=
  ["#FF6B6B", "#4ECDC4", "#45B7D1", "#96CEB4", "#FECA57",
   "#FF9FF3", "#54A0FF", "#5F27CD", "#00D2D3", "#FF9F43",
   "#FF3838", "#3742FA", "#2F3542", "#FF6348", "#1DD1A1"]

/-- Mutable fields of `GameSyncPresenceDurableObject`.  `batchPending`
models `batchTimeout !== null`; `randCtr` indexes the external random
string source used for anonymous ids and connection ids. -/
structure GState where
  gameState : List (String × UserGameState)
  wsToUser : List (Nat × String)
  usernames : List (String × String)
  colorIndex : Nat
  lastBroadcast : Nat
  pendingUpdates : List String
  batchPending : Bool
  randCtr : Nat
deriving Repr, DecidableEq

def gInit : GState := ⟨[], [], [], 0, 0, [], false, 0⟩

/-- The projection sent in `game_state_update` payloads. -/
structure GSnapshotEntry where
  userId : String
  username : String
  mousePosition : Option MousePosition
  cursorColor : String
  score : Option ℚ
  level : Option ℚ
  gameData : List (String × String)
deriving Repr, DecidableEq

/-- `getNextCursorColor`: round-robin over the fixed palette. -/
def getNextCursorColor (s : GState) : String × GState :=
  (cursorColors.getD (s.colorIndex % cursorColors.length) "",
   { s with colorIndex := s.colorIndex + 1 })

/-- `getOrGenerateUsername` (game-sync variant, keyed via
`extractSessionId`). -/
def getOrGenerateUsernameG (oracle : Nat → String) (userId : String) (s : GState) :
    String × GState :=
  let sessionId := extractSessionId userId
  let cacheKey := match sessionId with
    | some sid => "session_" ++ sid
    | none => userId
  match mapGet cacheKey s.usernames with
  | some n => (n, s)
  | none =>
    let n := oracle s.randCtr
    (n, { s with usernames := mapSet cacheKey n s.usernames, randCtr := s.randCtr + 1 })

/-- `Set.add` on the `pendingUpdates` set. -/
def setAdd (x : String) (l : List String) : List String :=
  if x ∈ l then l else l ++ [x]

/-- `scheduleBatchBroadcast`: starts the batching timer unless one is
already pending. -/
def scheduleBatchBroadcast (s : GState) : GState :=
  if s.batchPending then s else { s with batchPending := true }

/-- `broadcastGameState`: throttled full-state flush.  Building the payload
also clears (mutates) `mousePosition` for active users whose last mouse
update is older than `CURSOR_TIMEOUT`.  Returns the payload actually sent,
or `none` when the flush is throttled. -/
def broadcastGameState (now : Nat) (s : GState) : GState × Option (List GSnapshotEntry) :=
  if now - s.lastBroadcast < MIN_BROADCAST_INTERVAL then (s, none)
  else
    let s := { s with lastBroadcast := now }
    let cleared := s.gameState.map (fun e =>
      if e.2.isActive && e.2.mousePosition.isSome &&
          decide (CURSOR_TIMEOUT < now - e.2.lastMouseUpdate) then
        (e.1, { e.2 with mousePosition := none })
      else e)
    let activeUsers := ((cleared.map Prod.snd).filter (fun u => u.isActive)).map
      (fun u => GSnapshotEntry.mk u.userId u.username u.mousePosition
        u.cursorColor u.score u.level u.gameData)
    ({ s with gameState := cleared }, some activeUsers)

/-- `handleJoinGame`: unconditionally builds a fresh `UserGameState` (with
`joinedAt := Date.now()`) and stores it, then broadcasts.  Anonymous
user ids and connection ids consume the random oracle. -/
def handleJoinGame (oracle : Nat → String) (now : Nat) (userId username : Option String)
    (s : GState) : GState × UserGameState :=
  let (uid, s) := match userId with
    | some u => if u = "" then ("anon_" ++ toString now ++ "_" ++ oracle s.randCtr,
        { s with randCtr := s.randCtr + 1 }) else (u, s)
    | none => ("anon_" ++ toString now ++ "_" ++ oracle s.randCtr,
        { s with randCtr := s.randCtr + 1 })
  let (uname, s) := match username with
    | some u => if u = "" then getOrGenerateUsernameG oracle uid s else (u, s)
    | none => getOrGenerateUsernameG oracle uid s
  let (connectionId, s) := ("conn_" ++ toString now ++ "_" ++ oracle s.randCtr,
    { s with randCtr := s.randCtr + 1 })
  let (color, s) := getNextCursorColor s
  let userState : UserGameState :=
    { userId := uid
      username := uname
      joinedAt := now
      lastSeen := now
      isActive := true
      mousePosition := none
      lastMouseUpdate := 0
      cursorColor := color
      score := none
      level := none
      gameData := []
      sessionId := extractSessionId uid
      connectionId := connectionId }
  let s := { s with gameState := mapSet uid userState s.gameState }
  let (s, _) := broadcastGameState now s
  (s, userState)

/-- `handleMouseMove`: delta compression drops an update whose Euclidean
distance from the stored position is below `MOUSE_THROTTLE_DISTANCE`
(`sqrt(dx² + dy²) < 5` is encoded as `dx² + dy² < 5²`, both sides being
nonnegative); accepted updates are rounded, stamp liveness, bind the
connection, and mark the user dirty for the next batch. -/
def handleMouseMove (now : Nat) (conn : Nat) (userId : String) (mx my : ℚ)
    (tstamp : Nat) (s : GState) : GState :=
  match mapGet userId s.gameState with
  | none => s
  | some user =>
    let skip : Bool :=
      ENABLE_DELTA_COMPRESSION &&
        (match user.mousePosition with
         | some p =>
           decide ((mx - p.x) ^ 2 + (my - p.y) ^ 2 < MOUSE_THROTTLE_DISTANCE ^ 2)
         | none => false)
    if skip then s
    else
      let user := { user with
        mousePosition := some ⟨roundToPrecision mx, roundToPrecision my, tstamp⟩
        lastMouseUpdate := now
        lastSeen := now }
      let s := { s with
        gameState := mapSet userId user s.gameState
        wsToUser := mapSet conn userId s.wsToUser
        pendingUpdates := setAdd userId s.pendingUpdates }
      scheduleBatchBroadcast s

/-- `cleanupInactiveUsers`: entries whose `lastSeen` exceeds the stale
threshold are **deleted outright** from `gameState` (no grace register in
this variant); a broadcast follows when anything was removed. -/
def cleanupInactiveUsers (now : Nat) (s : GState) : GState × Option (List GSnapshotEntry) :=
  let kept := s.gameState.filter (fun e =>
    !(decide (PRESENCE_STALE_THRESHOLD < now - e.2.lastSeen)))
  let cleanedUp := s.gameState.length - kept.length
  let s := { s with gameState := kept }
  if 0 < cleanedUp then broadcastGameState now s else (s, none)

/-- The WebSocket-upgrade capacity check in the game-sync `fetch`: at or
above the cap the request is answered with HTTP 503 "Room at capacity"
before any upgrade happens. -/
def upgradeConnectionG (s : GState) : GState × PresenceDO.UpgradeOutcome :=
  if MAX_CONNECTIONS_PER_ROOM ≤ s.wsToUser.length then (s, .rejectedCapacity)
  else (s, .accepted)

end GameSyncDO

/-! ### Association-list lemmas -/

theorem mapGet_mapSet_self {α β : Type} [DecidableEq α] (k : α) (v : β) (l : List (α × β)) :
    mapGet k (mapSet k v l) = some v := by
  induction l with
  | nil => simp [mapGet, mapSet]
  | cons e rest ih =>
    by_cases h : e.1 = k
    · simp [mapSet, h, mapGet]
    · simp [mapSet, h, mapGet, ih]

theorem mapGet_mapSet_ne {α β : Type} [DecidableEq α] {k k' : α} (v : β) (l : List (α × β))
    (h : k ≠ k') : mapGet k (mapSet k' v l) = mapGet k l := by
  have h' : ¬ (k' = k) := fun hh => h hh.symm
  induction l with
  | nil => simp [mapGet, mapSet, h']
  | cons e rest ih =>
    by_cases he : e.1 = k'
    · subst he
      simp [mapSet, mapGet, h']
    · by_cases hk : e.1 = k
      · simp [mapSet, he, mapGet, hk, h]
      · simp [mapSet, he, mapGet, hk, ih]

theorem mapGet_mapDel_self {α β : Type} [DecidableEq α] (k : α) (l : List (α × β)) :
    mapGet k (mapDel k l) = none := by
  induction l with
  | nil => simp [mapGet, mapDel]
  | cons e rest ih =>
    by_cases h : e.1 = k
    · simpa [mapDel, h] using ih
    · simpa [mapDel, mapGet, h] using ih

theorem mapGet_mapDel_ne {α β : Type} [DecidableEq α] {k k' : α} (l : List (α × β))
    (h : k ≠ k') : mapGet k (mapDel k' l) = mapGet k l := by
  induction l with
  | nil => simp [mapGet, mapDel]
  | cons e rest ih =>
    have h' : ¬ (k' = k) := fun hh => h hh.symm
    by_cases he : e.1 = k'
    · simpa [mapDel, List.filter_cons, mapGet, he, h'] using ih
    · by_cases hk : e.1 = k
      · simp [mapDel, List.filter_cons, mapGet, he, hk, h]
      · simpa [mapDel, List.filter_cons, mapGet, he, hk] using ih

theorem mapGet_none_filter {α β : Type} [DecidableEq α] (k : α) (p : α × β → Bool)
    (l : List (α × β)) (h : mapGet k l = none) : mapGet k (l.filter p) = none := by
  induction l with
  | nil => simp [mapGet]
  | cons e rest ih =>
    by_cases hk : e.1 = k
    · simp [mapGet, hk] at h
    · simp [mapGet, hk] at h
      by_cases hp : p e
      · simpa [List.filter, hp, mapGet, hk] using ih h
      · simpa [List.filter, hp] using ih h

theorem mem_keys_of_mapGet {α β : Type} [DecidableEq α] {k : α} {v : β} {l : List (α × β)}
    (h : mapGet k l = some v) : k ∈ l.map Prod.fst := by
  induction l with
  | nil => simp [mapGet] at h
  | cons e rest ih =>
    by_cases hk : e.1 = k
    · simp [hk]
    · simp [mapGet, hk] at h
      simp [ih h]


/-! ### Supporting lemmas about the presence actor -/

namespace PresenceDO

theorem broadcastPresenceUpdate_presence (now : Nat) (s : PState) :
    ((broadcastPresenceUpdate now s).1).presence = s.presence := by
  unfold broadcastPresenceUpdate
  split <;> rfl

theorem broadcastPresenceUpdate_pending (now : Nat) (s : PState) :
    ((broadcastPresenceUpdate now s).1).pendingReconnects = s.pendingReconnects := by
  unfold broadcastPresenceUpdate
  split <;> rfl

theorem mem_presenceList_not_reconnecting {s : PState} {q : UserPresence}
    (h : q ∈ presenceList s) : q.isReconnecting = false := by
  unfold presenceList at h
  simpa using (List.mem_filter.mp h).2

theorem mem_getSnapshot_not_reconnecting {s : PState} {q : UserPresence}
    (h : q ∈ getSnapshot s) : q.isReconnecting = false := by
  unfold getSnapshot at h
  simpa using (List.mem_filter.mp h).2

end PresenceDO

namespace PresenceDO

/-- Effect of a heartbeat for a user who is present and has a
pending-reconnect entry: liveness refreshed, flag cleared, grace entry
cancelled. -/
theorem handleHeartbeat_reconnect_spec (now conn : Nat) (uid : String) (s : PState)
    (q : UserPresence) (hq : mapGet uid s.presence = some q)
    (hpd : (mapGet uid s.pendingReconnects).isSome = true) :
    mapGet uid ((handleHeartbeat now conn uid s).1).presence =
      some { q with lastSeen := now, isReconnecting := false } ∧
    mapGet uid ((handleHeartbeat now conn uid s).1).pendingReconnects = none := by
  unfold handleHeartbeat
  rw [hq]
  simp only [hpd, if_true]
  constructor
  · rw [broadcastPresenceUpdate_presence]
    exact mapGet_mapSet_self _ _ _
  · rw [broadcastPresenceUpdate_pending]
    exact mapGet_mapDel_self _ _

/-- Effect of `handleUserDisconnect` on a present user. -/
theorem handleUserDisconnect_spec (now : Nat) (u : String) (s : PState)
    (p : UserPresence) (hu : mapGet u s.presence = some p) :
    handleUserDisconnect now u s =
      { s with
        pendingReconnects :=
          mapSet u ⟨u, p.username, now + RECONNECT_GRACE_PERIOD⟩ s.pendingReconnects
        presence := mapSet u { p with isReconnecting := true } s.presence
        graceTimers := s.graceTimers ++ [(now + RECONNECT_GRACE_PERIOD, u)] } := by
  unfold handleUserDisconnect
  rw [hu]

end PresenceDO

/-! ### Claim theorems -/

namespace Claims

open PresenceDO in
/-- C1 counterexample: in the concrete trace where u1 joins (t=100), u2 joins
(t=300), u1 binds connection 1 (t=400) and that connection closes (t=500),
a join of u3 at t=700 — strictly between the close and u1's reconnect
heartbeat at t=800, which is well before the grace deadline t=10500 —
emits a broadcast whose payload omits u1 (grace-pending entries are
filtered from every payload), even though the reconnect then succeeds and
restores u1 with the original joinedAt = 100.  This refutes the claim's
"no broadcast omitting that user is sent between the close and the
reconnect". -/
theorem claim_C1_counterexample :
    (pstep (fun _ => "g")
        ((runTrace (fun _ => "g") pInit [.join 100 "u1" (some "Al"),
          .join 300 "u2" (some "Bob"), .heartbeat 400 1 "u1", .close 500 1]).1)
        (.join 700 "u3" (some "Cy"))).2 =
      [.broadcast [⟨"u2", "Bob", 300, 300, none, false⟩,
        ⟨"u3", "Cy", 700, 700, none, false⟩]] ∧
    ([(⟨"u2", "Bob", 300, 300, none, false⟩ : UserPresence),
      ⟨"u3", "Cy", 700, 700, none, false⟩].all
        (fun q => !(q.userId == "u1"))) = true ∧
    (800 : Nat) < 500 + RECONNECT_GRACE_PERIOD ∧
    mapGet "u1" ((pstep (fun _ => "g")
        (pstep (fun _ => "g")
          ((runTrace (fun _ => "g") pInit [.join 100 "u1" (some "Al"),
            .join 300 "u2" (some "Bob"), .heartbeat 400 1 "u1", .close 500 1]).1)
          (.join 700 "u3" (some "Cy"))).1
        (.heartbeat 800 2 "u1")).1).presence = some ⟨"u1", "Al", 100, 800, none, false⟩ := by
  exact ⟨rfl, by decide, by decide, rfl⟩

open PresenceDO in
/-- C1 amended (corrected): if a bound connection closes and a heartbeat for
the same userId is processed next, with no other event in between (and in
particular before the grace deadline), then the close itself emits no
broadcast, the pending-reconnect entry is removed, isReconnecting is
cleared, and the resulting entry keeps the original joinedAt (only
lastSeen changes).  Broadcasts triggered by unrelated events inside the
grace window do omit the user, as the counterexample shows. -/
theorem claim_C1_amended (gen : Nat → String) (s : PState) (conn conn2 t0 t1 : Nat)
    (u : String) (p : UserPresence)
    (hbind : mapGet conn s.wsToUser = some u)
    (hu : mapGet u s.presence = some p)
    (_hdl : t1 < t0 + RECONNECT_GRACE_PERIOD) :
    (pstep gen s (.close t0 conn)).2 = [] ∧
    mapGet u ((pstep gen (pstep gen s (.close t0 conn)).1
      (.heartbeat t1 conn2 u)).1).pendingReconnects = none ∧
    mapGet u ((pstep gen (pstep gen s (.close t0 conn)).1
      (.heartbeat t1 conn2 u)).1).presence =
      some { p with lastSeen := t1, isReconnecting := false } := by
  have hud := handleUserDisconnect_spec t0 u s p hu
  have hclose1 : (pstep gen s (.close t0 conn)).1 =
      { handleUserDisconnect t0 u s with
        wsToUser := mapDel conn (handleUserDisconnect t0 u s).wsToUser } := by
    simp [pstep, handleClose, hbind]
  have hp1 : mapGet u ((pstep gen s (.close t0 conn)).1).presence =
      some { p with isReconnecting := true } := by
    rw [hclose1, hud]
    exact mapGet_mapSet_self _ _ _
  have hpd1 : (mapGet u ((pstep gen s (.close t0 conn)).1).pendingReconnects).isSome = true := by
    rw [hclose1, hud]
    simp [mapGet_mapSet_self]
  have hstep : pstep gen (pstep gen s (.close t0 conn)).1 (.heartbeat t1 conn2 u) =
      handleHeartbeat t1 conn2 u (pstep gen s (.close t0 conn)).1 := rfl
  have hspec := handleHeartbeat_reconnect_spec t1 conn2 u
    ((pstep gen s (.close t0 conn)).1) _ hp1 hpd1
  refine ⟨rfl, ?_, ?_⟩
  · rw [hstep]
    exact hspec.2
  · rw [hstep, hspec.1]

open PresenceDO in
/-- Witness for `claim_C1_amended` at a concrete state: u bound on
connection 7, present since t=50; close at t=1000, heartbeat at t=2000
(inside the 10 s grace window). -/
theorem claim_C1_witness :
    (pstep (fun _ => "g") ⟨[("u", ⟨"u", "Al", 50, 60, none, false⟩)], [(7, "u")], [], [], 0, [], 0⟩
        (.close 1000 7)).2 = [] ∧
    mapGet "u" ((pstep (fun _ => "g")
      (pstep (fun _ => "g")
        ⟨[("u", ⟨"u", "Al", 50, 60, none, false⟩)], [(7, "u")], [], [], 0, [], 0⟩
        (.close 1000 7)).1
      (.heartbeat 2000 8 "u")).1).pendingReconnects = none ∧
    mapGet "u" ((pstep (fun _ => "g")
      (pstep (fun _ => "g")
        ⟨[("u", ⟨"u", "Al", 50, 60, none, false⟩)], [(7, "u")], [], [], 0, [], 0⟩
        (.close 1000 7)).1
      (.heartbeat 2000 8 "u")).1).presence = some ⟨"u", "Al", 50, 2000, none, false⟩ :=
  claim_C1_amended (fun _ => "g")
    ⟨[("u", ⟨"u", "Al", 50, 60, none, false⟩)], [(7, "u")], [], [], 0, [], 0⟩
    7 8 1000 2000 "u" ⟨"u", "Al", 50, 60, none, false⟩ rfl rfl (by decide)

open PresenceDO in
/-- C2 counterexample: in the end-to-end scenario (u1 joins at t=100, u2
joins as Bob at t=300, u1 binds connection 1 at t=400, the connection
closes at t=500), a getSnapshot read taken inside the grace window (which
ends at t=10500) does NOT contain u1: the GET branch of
`handlePresenceAPI` filters out `isReconnecting` entries, so the snapshot
is exactly the Bob entry.  This refutes "within the grace window the
snapshot still contains u1". -/
theorem claim_C2_counterexample :
    getSnapshot ((runTrace (fun _ => "wolf") pInit [.join 100 "u1" none,
        .join 300 "u2" (some "Bob"), .heartbeat 400 1 "u1", .close 500 1]).1) =
      [⟨"u2", "Bob", 300, 300, none, false⟩] ∧
    ((getSnapshot ((runTrace (fun _ => "wolf") pInit [.join 100 "u1" none,
        .join 300 "u2" (some "Bob"), .heartbeat 400 1 "u1", .close 500 1]).1)).all
      (fun q => !(q.userId == "u1"))) = true := by
  exact ⟨rfl, by decide⟩

open PresenceDO in
/-- C2 amended (corrected): in that scenario, within the grace window the
Presence Store still holds u1 (marked isReconnecting, with the original
joinedAt = 100) but getSnapshot already excludes it, returning only Bob;
after the grace deadline passes with no reconnect (the grace timer fires
at t=10500), u1 is removed from the store and the snapshot still contains
only Bob. -/
theorem claim_C2_amended :
    mapGet "u1" ((runTrace (fun _ => "wolf") pInit [.join 100 "u1" none,
        .join 300 "u2" (some "Bob"), .heartbeat 400 1 "u1", .close 500 1]).1).presence =
      some ⟨"u1", "wolf", 100, 400, none, true⟩ ∧
    getSnapshot ((runTrace (fun _ => "wolf") pInit [.join 100 "u1" none,
        .join 300 "u2" (some "Bob"), .heartbeat 400 1 "u1", .close 500 1]).1) =
      [⟨"u2", "Bob", 300, 300, none, false⟩] ∧
    mapGet "u1" ((pstep (fun _ => "wolf")
        ((runTrace (fun _ => "wolf") pInit [.join 100 "u1" none,
          .join 300 "u2" (some "Bob"), .heartbeat 400 1 "u1", .close 500 1]).1)
        (.timer 10500 "u1")).1).presence = none ∧
    getSnapshot ((pstep (fun _ => "wolf")
        ((runTrace (fun _ => "wolf") pInit [.join 100 "u1" none,
          .join 300 "u2" (some "Bob"), .heartbeat 400 1 "u1", .close 500 1]).1)
        (.timer 10500 "u1")).1) = [⟨"u2", "Bob", 300, 300, none, false⟩] := by
  exact ⟨rfl, rfl, rfl, rfl⟩

/-- C5 counterexample: in the game-sync actor, joining twice with the same
userId "u1" (t=100, then t=500) does NOT preserve joinedAt: the stored
entry after the second join has joinedAt = 500, although it was 100
before.  `handleJoinGame` rebuilds the entry with `joinedAt: Date.now()`
unconditionally. -/
theorem claim_C5_counterexample :
    (mapGet "u1" ((GameSyncDO.handleJoinGame (fun _ => "r") 100 (some "u1") (some "A")
        GameSyncDO.gInit).1).gameState).map GameSyncDO.UserGameState.joinedAt = some 100 ∧
    (mapGet "u1" ((GameSyncDO.handleJoinGame (fun _ => "r") 500 (some "u1") (some "A")
        ((GameSyncDO.handleJoinGame (fun _ => "r") 100 (some "u1") (some "A")
          GameSyncDO.gInit).1)).1).gameState).map GameSyncDO.UserGameState.joinedAt =
      some 500 := by
  exact ⟨rfl, rfl⟩

/-- C5 amended (corrected): in the plain presence actor, a join for an
already-present userId preserves the entry's joinedAt (provided it is a
real, nonzero timestamp — the source uses `existing?.joinedAt || now`) and
sets lastSeen to the current time, in both the pending-reconnect branch
and the ordinary branch of `addUserPresence`; in the game-sync actor,
`handleJoinGame` always stamps joinedAt with the current time, resetting
it on a refresh. -/
theorem claim_C5_amended :
    (∀ (gen : Nat → String) (now : Nat) (uid : String) (uname : Option String)
        (s : PresenceDO.PState) (p : PresenceDO.UserPresence),
      mapGet uid s.presence = some p → 0 < p.joinedAt →
      (PresenceDO.addUserPresence gen now uid uname s).1.joinedAt = p.joinedAt ∧
      (PresenceDO.addUserPresence gen now uid uname s).1.lastSeen = now) ∧
    (∀ (oracle : Nat → String) (now : Nat) (uid uname : Option String)
        (s : GameSyncDO.GState),
      (GameSyncDO.handleJoinGame oracle now uid uname s).2.joinedAt = now) := by
  constructor
  · intro gen now uid uname s p hu hj
    have hjne : p.joinedAt ≠ 0 := Nat.pos_iff_ne_zero.mp hj
    unfold PresenceDO.addUserPresence
    cases hpend : mapGet uid s.pendingReconnects with
    | some pending =>
      simp only [hpend]
      refine ⟨by simp [hu, jsOr, hjne], by trivial⟩
    | none =>
      simp only [hpend]
      refine ⟨by simp [hu, jsOr, hjne], by trivial⟩
  · intro oracle now uid uname s
    unfold GameSyncDO.handleJoinGame
    repeat' split
    all_goals rfl

/-- Witness for `claim_C5_amended`: a presence join refresh for "u"
(present since t=100) at t=900 keeps joinedAt = 100 and stamps
lastSeen = 900; a game-sync join at t=900 stamps joinedAt = 900. -/
theorem claim_C5_witness :
    (PresenceDO.addUserPresence (fun _ => "g") 900 "u" (some "B")
        ⟨[("u", ⟨"u", "A", 100, 100, none, false⟩)], [], [], [], 0, [], 0⟩).1.joinedAt = 100 ∧
    (PresenceDO.addUserPresence (fun _ => "g") 900 "u" (some "B")
        ⟨[("u", ⟨"u", "A", 100, 100, none, false⟩)], [], [], [], 0, [], 0⟩).1.lastSeen = 900 ∧
    (GameSyncDO.handleJoinGame (fun _ => "r") 900 (some "u") (some "B")
        GameSyncDO.gInit).2.joinedAt = 900 := by
  refine ⟨(claim_C5_amended.1 (fun _ => "g") 900 "u" (some "B")
      ⟨[("u", ⟨"u", "A", 100, 100, none, false⟩)], [], [], [], 0, [], 0⟩
      ⟨"u", "A", 100, 100, none, false⟩ rfl (by decide)).1,
    (claim_C5_amended.1 (fun _ => "g") 900 "u" (some "B")
      ⟨[("u", ⟨"u", "A", 100, 100, none, false⟩)], [], [], [], 0, [], 0⟩
      ⟨"u", "A", 100, 100, none, false⟩ rfl (by decide)).2,
    claim_C5_amended.2 (fun _ => "r") 900 (some "u") (some "B") GameSyncDO.gInit⟩

/-- C8 (confirmed): for a user with a recorded mouse position, a
`mouse_move` whose Euclidean distance from the stored position is strictly
below the 5-pixel threshold is a complete no-op: the whole actor state —
stored position, lastSeen, connection binding, pending dirty-marks, batch
timer — is returned unchanged. -/
theorem claim_C8_distance_filter (now conn : Nat) (userId : String) (mx my : ℚ)
    (ts : Nat) (s : GameSyncDO.GState) (user : GameSyncDO.UserGameState)
    (p : GameSyncDO.MousePosition)
    (hu : mapGet userId s.gameState = some user)
    (hp : user.mousePosition = some p)
    (hd : (mx - p.x) ^ 2 + (my - p.y) ^ 2 < GameSyncDO.MOUSE_THROTTLE_DISTANCE ^ 2) :
    GameSyncDO.handleMouseMove now conn userId mx my ts s = s := by
  unfold GameSyncDO.handleMouseMove
  rw [hu]
  simp [hp, GameSyncDO.ENABLE_DELTA_COMPRESSION, hd]

/-- Witness for `claim_C8_distance_filter`: the user sits at (0, 0) and the
update to (1, 1) has squared distance 2 < 25, so the state is unchanged. -/
theorem claim_C8_witness :
    GameSyncDO.handleMouseMove 10 1 "u" 1 1 5
      ⟨[("u", ⟨"u", "A", 0, 0, true, some ⟨0, 0, 0⟩, 0, "#FF6B6B", none, none, [], none, "c"⟩)],
        [], [], 0, 0, [], false, 0⟩ =
      ⟨[("u", ⟨"u", "A", 0, 0, true, some ⟨0, 0, 0⟩, 0, "#FF6B6B", none, none, [], none, "c"⟩)],
        [], [], 0, 0, [], false, 0⟩ :=
  claim_C8_distance_filter 10 1 "u" 1 1 5
    ⟨[("u", ⟨"u", "A", 0, 0, true, some ⟨0, 0, 0⟩, 0, "#FF6B6B", none, none, [], none, "c"⟩)],
      [], [], 0, 0, [], false, 0⟩
    ⟨"u", "A", 0, 0, true, some ⟨0, 0, 0⟩, 0, "#FF6B6B", none, none, [], none, "c"⟩
    ⟨0, 0, 0⟩ rfl rfl (by norm_num [GameSyncDO.MOUSE_THROTTLE_DISTANCE])

/-- C9 (confirmed): in both room actors, once the count of bound
connections has reached the per-room cap, a further WebSocket upgrade
attempt is answered with the capacity rejection (close code 1008 / HTTP
503 "Room at capacity") and the state — presence store included — is
returned entirely unchanged: nobody is evicted. -/
theorem claim_C9_capacity (s : PresenceDO.PState) (g : GameSyncDO.GState)
    (hs : PresenceDO.MAX_CONNECTIONS_PER_ROOM ≤ s.wsToUser.length)
    (hg : GameSyncDO.MAX_CONNECTIONS_PER_ROOM ≤ g.wsToUser.length) :
    PresenceDO.upgradeConnection s = (s, .rejectedCapacity) ∧
    GameSyncDO.upgradeConnectionG g = (g, .rejectedCapacity) := by
  constructor
  · simp [PresenceDO.upgradeConnection, hs]
  · simp [GameSyncDO.upgradeConnectionG, hg]

/-- Witness for `claim_C9_capacity`: a presence room with exactly 100 bound
connections and a game-sync room with exactly 50 bound connections both
reject the next upgrade and keep their state. -/
theorem claim_C9_witness :
    PresenceDO.upgradeConnection
        ⟨[], (List.range 100).map (fun i => (i, "u")), [], [], 0, [], 0⟩ =
      (⟨[], (List.range 100).map (fun i => (i, "u")), [], [], 0, [], 0⟩, .rejectedCapacity) ∧
    GameSyncDO.upgradeConnectionG
        ⟨[], (List.range 50).map (fun i => (i, "u")), [], 0, 0, [], false, 0⟩ =
      (⟨[], (List.range 50).map (fun i => (i, "u")), [], 0, 0, [], false, 0⟩,
        .rejectedCapacity) :=
  claim_C9_capacity _ _ (by simp [PresenceDO.MAX_CONNECTIONS_PER_ROOM])
    (by simp [GameSyncDO.MAX_CONNECTIONS_PER_ROOM])

open PresenceDO in
/-- C10 (confirmed): when a join is processed for a userId that has a
pending-reconnect entry, the restored entry's username is the one saved in
the pending entry — any client-supplied username argument is ignored on a
grace-period reconnect. -/
theorem claim_C10_reconnect_username (gen : Nat → String) (now : Nat) (userId : String)
    (uname : Option String) (s : PState) (pending : PendingReconnect)
    (hp : mapGet userId s.pendingReconnects = some pending) :
    (addUserPresence gen now userId uname s).1.username = pending.username ∧
    mapGet userId ((addUserPresence gen now userId uname s).2.1).presence =
      some (addUserPresence gen now userId uname s).1 := by
  unfold addUserPresence
  rw [hp]
  refine ⟨rfl, ?_⟩
  rw [broadcastPresenceUpdate_presence]
  exact mapGet_mapSet_self _ _ _

open PresenceDO in
/-- Witness for `claim_C10_reconnect_username`: user "u" is pending with
saved username "orig"; a join supplying the different username "other"
restores "orig". -/
theorem claim_C10_witness :
    (addUserPresence (fun _ => "g") 100 "u" (some "other")
        ⟨[("u", ⟨"u", "orig", 10, 20, none, true⟩)], [], [],
          [("u", ⟨"u", "orig", 5000⟩)], 0, [(5000, "u")], 0⟩).1.username = "orig" ∧
    mapGet "u" ((addUserPresence (fun _ => "g") 100 "u" (some "other")
        ⟨[("u", ⟨"u", "orig", 10, 20, none, true⟩)], [], [],
          [("u", ⟨"u", "orig", 5000⟩)], 0, [(5000, "u")], 0⟩).2.1).presence =
      some (addUserPresence (fun _ => "g") 100 "u" (some "other")
        ⟨[("u", ⟨"u", "orig", 10, 20, none, true⟩)], [], [],
          [("u", ⟨"u", "orig", 5000⟩)], 0, [(5000, "u")], 0⟩).1 :=
  claim_C10_reconnect_username (fun _ => "g") 100 "u" (some "other")
    ⟨[("u", ⟨"u", "orig", 10, 20, none, true⟩)], [], [],
      [("u", ⟨"u", "orig", 5000⟩)], 0, [(5000, "u")], 0⟩
    ⟨"u", "orig", 5000⟩ rfl

end Claims

/-! ### C3: no grace-pending entry in any outbound payload -/

namespace PresenceDO


theorem broadcastPresenceUpdate_out_ok (now : Nat) (s : PState) :
    ∀ o ∈ (broadcastPresenceUpdate now s).2, ∀ q ∈ o.payload, q.isReconnecting = false := by
  unfold broadcastPresenceUpdate
  split
  · simp
  · intro o ho q hq
    simp only [List.mem_singleton] at ho
    subst ho
    exact mem_presenceList_not_reconnecting (by simpa [POut.payload] using hq)

theorem direct_out_ok (conn : Nat) (s : PState) :
    ∀ q ∈ (POut.direct conn (presenceList s)).payload, q.isReconnecting = false := by
  intro q hq
  exact mem_presenceList_not_reconnecting (by simpa [POut.payload] using hq)

theorem addUserPresence_out_ok (gen : Nat → String) (now : Nat) (uid : String)
    (uname : Option String) (s : PState) :
    ∀ o ∈ (addUserPresence gen now uid uname s).2.2, ∀ q ∈ o.payload,
      q.isReconnecting = false := by
  unfold addUserPresence
  cases hpend : mapGet uid s.pendingReconnects <;> simp only [hpend]
  · exact broadcastPresenceUpdate_out_ok _ _
  · exact broadcastPresenceUpdate_out_ok _ _

theorem out_ok_with_direct (x : PState × List POut) (conn : Nat)
    (hx : ∀ o ∈ x.2, ∀ q ∈ o.payload, q.isReconnecting = false) :
    ∀ o ∈ x.2 ++ [POut.direct conn (presenceList x.1)], ∀ q ∈ o.payload,
      q.isReconnecting = false := by
  intro o ho q hq
  rcases List.mem_append.mp ho with h | h
  · exact hx o h q hq
  · simp only [List.mem_singleton] at h
    subst h
    exact direct_out_ok _ _ q hq

theorem handleHeartbeat_out_ok (now conn : Nat) (uid : String) (s : PState) :
    ∀ o ∈ (handleHeartbeat now conn uid s).2, ∀ q ∈ o.payload,
      q.isReconnecting = false := by
  unfold handleHeartbeat
  cases hq : mapGet uid s.presence <;> simp only [hq]
  · simp
  · refine out_ok_with_direct _ conn ?_
    split
    · exact broadcastPresenceUpdate_out_ok _ _
    · simp

theorem fireGraceTimer_out_ok (now : Nat) (uid : String) (s : PState) :
    ∀ o ∈ (fireGraceTimer now uid s).2, ∀ q ∈ o.payload, q.isReconnecting = false := by
  unfold fireGraceTimer
  cases ht : removeEligibleTimer uid now s.graceTimers <;> simp only [ht]
  · simp
  · split
    · exact broadcastPresenceUpdate_out_ok _ _
    · simp

theorem pstep_out_ok (gen : Nat → String) (s : PState) (e : PEvent) :
    ∀ o ∈ (pstep gen s e).2, ∀ q ∈ o.payload, q.isReconnecting = false := by
  cases e with
  | join now uid uname => exact addUserPresence_out_ok gen now uid uname s
  | leave now uid => simp [pstep]
  | heartbeat now conn uid => exact handleHeartbeat_out_ok now conn uid s
  | close now conn => simp [pstep]
  | sweep now => simp [pstep]
  | timer now uid => exact fireGraceTimer_out_ok now uid s

theorem runTrace_out_ok (gen : Nat → String) (s : PState) (es : List PEvent) :
    ∀ o ∈ (runTrace gen s es).2, ∀ q ∈ o.payload, q.isReconnecting = false := by
  induction es generalizing s with
  | nil => simp [runTrace]
  | cons e rest ih =>
    intro o ho q hq
    unfold runTrace at ho
    rcases List.mem_append.mp ho with h | h
    · exact pstep_out_ok gen s e o h q hq
    · exact ih (pstep gen s e).1 o h q hq

end PresenceDO

namespace Claims

open PresenceDO in
/-- C3 (confirmed): for every sequence of operations run from the initial
state, every outbound payload — broadcast flushes and per-connection
direct sends alike — and every getSnapshot read contain only entries whose
isReconnecting flag is false: each emission site filters the presence list
with `!p.isReconnecting`. -/
theorem claim_C3_no_pending_in_payload (gen : Nat → String) (events : List PEvent) :
    (∀ o ∈ (runTrace gen pInit events).2, ∀ q ∈ o.payload, q.isReconnecting = false) ∧
    (∀ q ∈ getSnapshot ((runTrace gen pInit events).1), q.isReconnecting = false) :=
  ⟨runTrace_out_ok gen pInit events,
   fun _ hq => mem_getSnapshot_not_reconnecting hq⟩

open PresenceDO in
/-- Witness for `claim_C3_no_pending_in_payload`: in the one-join trace the
broadcast payload contains the joined entry, and that entry has
isReconnecting = false. -/
theorem claim_C3_witness :
    (⟨"u", "A", 100, 100, none, false⟩ : UserPresence).isReconnecting = false ∧
    (⟨"u", "B", 40, 40, none, false⟩ : UserPresence).isReconnecting = false :=
  ⟨(claim_C3_no_pending_in_payload (fun _ => "g") [.join 100 "u" (some "A")]).1
      (.broadcast [⟨"u", "A", 100, 100, none, false⟩]) (by decide)
      ⟨"u", "A", 100, 100, none, false⟩ (by decide),
   (claim_C3_no_pending_in_payload (fun _ => "g") [.join 40 "u" (some "B")]).2
      ⟨"u", "B", 40, 40, none, false⟩ (by decide)⟩

end Claims

/-! ### C4: broadcast throttling -/

namespace PresenceDO

theorem broadcastPresenceUpdate_spec (now : Nat) (s' : PState) (L : Nat)
    (h : s'.lastBroadcast = L) :
    ((broadcastPresenceUpdate now s').2.any POut.isBroadcast = true →
      L + MIN_BROADCAST_INTERVAL ≤ now ∧
      (broadcastPresenceUpdate now s').1.lastBroadcast = now) ∧
    ((broadcastPresenceUpdate now s').2.any POut.isBroadcast = false →
      (broadcastPresenceUpdate now s').1.lastBroadcast = L) := by
  subst h
  unfold broadcastPresenceUpdate
  split
  · simp
  · rename_i hge
    constructor
    · intro _
      refine ⟨?_, rfl⟩
      simp only [MIN_BROADCAST_INTERVAL] at hge ⊢
      omega
    · intro hfalse
      simp [POut.isBroadcast] at hfalse

theorem getOrGenerateUsername_lastBroadcast (gen : Nat → String) (uid : String)
    (s : PState) : ((getOrGenerateUsername gen uid s).2).lastBroadcast = s.lastBroadcast := by
  unfold getOrGenerateUsername
  dsimp only
  split <;> rfl

theorem handleUserDisconnect_lastBroadcast (now : Nat) (u : String) (s : PState) :
    (handleUserDisconnect now u s).lastBroadcast = s.lastBroadcast := by
  unfold handleUserDisconnect
  split <;> rfl

theorem handleClose_lastBroadcast (now conn : Nat) (s : PState) :
    (handleClose now conn s).lastBroadcast = s.lastBroadcast := by
  unfold handleClose
  split
  · rfl
  · simp [handleUserDisconnect_lastBroadcast]

theorem staleStep_lastBroadcast (now : Nat) (s : PState) (k : String) :
    (staleStep now s k).lastBroadcast = s.lastBroadcast := by
  unfold staleStep
  repeat' split
  all_goals simp [handleUserDisconnect_lastBroadcast]

theorem pendingStep_lastBroadcast (now : Nat) (s : PState) (k : String) :
    (pendingStep now s k).lastBroadcast = s.lastBroadcast := by
  unfold pendingStep
  repeat' split
  all_goals rfl

theorem foldl_staleStep_lastBroadcast (now : Nat) (keys : List String) :
    ∀ s : PState, (keys.foldl (staleStep now) s).lastBroadcast = s.lastBroadcast := by
  induction keys with
  | nil => intro s; rfl
  | cons k rest ih =>
    intro s
    simp only [List.foldl_cons]
    rw [ih, staleStep_lastBroadcast]

theorem foldl_pendingStep_lastBroadcast (now : Nat) (keys : List String) :
    ∀ s : PState, (keys.foldl (pendingStep now) s).lastBroadcast = s.lastBroadcast := by
  induction keys with
  | nil => intro s; rfl
  | cons k rest ih =>
    intro s
    simp only [List.foldl_cons]
    rw [ih, pendingStep_lastBroadcast]

theorem spec_append_direct (x : PState × List POut) (conn : Nat) (L now : Nat)
    (h1 : x.2.any POut.isBroadcast = true → L + MIN_BROADCAST_INTERVAL ≤ now ∧
      x.1.lastBroadcast = now)
    (h2 : x.2.any POut.isBroadcast = false → x.1.lastBroadcast = L) :
    ((x.2 ++ [POut.direct conn (presenceList x.1)]).any POut.isBroadcast = true →
      L + MIN_BROADCAST_INTERVAL ≤ now ∧ x.1.lastBroadcast = now) ∧
    ((x.2 ++ [POut.direct conn (presenceList x.1)]).any POut.isBroadcast = false →
      x.1.lastBroadcast = L) := by
  simp only [List.any_append, List.any_cons, List.any_nil, POut.isBroadcast,
    Bool.or_false]
  exact ⟨h1, h2⟩

theorem addUserPresence_as_bpu (gen : Nat → String) (now : Nat) (uid : String)
    (uname : Option String) (s : PState) :
    ∃ X : PState,
      (addUserPresence gen now uid uname s).2.1 = (broadcastPresenceUpdate now X).1 ∧
      (addUserPresence gen now uid uname s).2.2 = (broadcastPresenceUpdate now X).2 ∧
      X.lastBroadcast = s.lastBroadcast := by
  unfold addUserPresence
  cases hpend : mapGet uid s.pendingReconnects <;> simp only [hpend]
  · repeat' split
    all_goals
      exact ⟨_, rfl, rfl,
        by first | rfl | exact getOrGenerateUsername_lastBroadcast gen uid _⟩
  · exact ⟨_, rfl, rfl, rfl⟩

theorem handleHeartbeat_as_bpu (now conn : Nat) (uid : String) (s : PState) :
    handleHeartbeat now conn uid s = (s, []) ∨
    (∃ X : PState,
      handleHeartbeat now conn uid s =
        ((broadcastPresenceUpdate now X).1,
          (broadcastPresenceUpdate now X).2 ++
            [POut.direct conn (presenceList (broadcastPresenceUpdate now X).1)]) ∧
      X.lastBroadcast = s.lastBroadcast) ∨
    (∃ X : PState,
      handleHeartbeat now conn uid s = (X, [POut.direct conn (presenceList X)]) ∧
      X.lastBroadcast = s.lastBroadcast) := by
  unfold handleHeartbeat
  cases hq : mapGet uid s.presence <;> simp only [hq]
  · exact Or.inl trivial
  · split
    · exact Or.inr (Or.inl ⟨_, rfl, rfl⟩)
    · exact Or.inr (Or.inr ⟨_, rfl, rfl⟩)

theorem fireGraceTimer_as_bpu (now : Nat) (uid : String) (s : PState) :
    (∃ X : PState, fireGraceTimer now uid s = (X, []) ∧
      X.lastBroadcast = s.lastBroadcast) ∨
    (∃ X : PState, fireGraceTimer now uid s = broadcastPresenceUpdate now X ∧
      X.lastBroadcast = s.lastBroadcast) := by
  unfold fireGraceTimer
  cases ht : removeEligibleTimer uid now s.graceTimers <;> simp only [ht]
  · exact Or.inl ⟨_, rfl, rfl⟩
  · split
    · exact Or.inr ⟨_, rfl, rfl⟩
    · exact Or.inl ⟨_, rfl, rfl⟩

theorem pstep_broadcast_spec (gen : Nat → String) (s : PState) (e : PEvent) :
    ((pstep gen s e).2.any POut.isBroadcast = true →
      s.lastBroadcast + MIN_BROADCAST_INTERVAL ≤ eventTime e ∧
      (pstep gen s e).1.lastBroadcast = eventTime e) ∧
    ((pstep gen s e).2.any POut.isBroadcast = false →
      (pstep gen s e).1.lastBroadcast = s.lastBroadcast) := by
  cases e with
  | join now uid uname =>
    obtain ⟨X, h1, h2, hL⟩ := addUserPresence_as_bpu gen now uid uname s
    show ((addUserPresence gen now uid uname s).2.2.any POut.isBroadcast = true →
        s.lastBroadcast + MIN_BROADCAST_INTERVAL ≤ now ∧
        (addUserPresence gen now uid uname s).2.1.lastBroadcast = now) ∧
      ((addUserPresence gen now uid uname s).2.2.any POut.isBroadcast = false →
        (addUserPresence gen now uid uname s).2.1.lastBroadcast = s.lastBroadcast)
    rw [h1, h2]
    exact broadcastPresenceUpdate_spec now X s.lastBroadcast hL
  | leave now uid =>
    refine ⟨fun h => ?_, fun _ => handleUserDisconnect_lastBroadcast now uid s⟩
    simp [pstep] at h
  | heartbeat now conn uid =>
    show ((handleHeartbeat now conn uid s).2.any POut.isBroadcast = true →
        s.lastBroadcast + MIN_BROADCAST_INTERVAL ≤ now ∧
        (handleHeartbeat now conn uid s).1.lastBroadcast = now) ∧
      ((handleHeartbeat now conn uid s).2.any POut.isBroadcast = false →
        (handleHeartbeat now conn uid s).1.lastBroadcast = s.lastBroadcast)
    rcases handleHeartbeat_as_bpu now conn uid s with h | ⟨X, heq, hL⟩ | ⟨X, heq, hL⟩
    · rw [h]
      exact ⟨fun hc => by simp at hc, fun _ => rfl⟩
    · rw [heq]
      exact spec_append_direct (broadcastPresenceUpdate now X) conn s.lastBroadcast now
        ((broadcastPresenceUpdate_spec now X s.lastBroadcast hL).1)
        ((broadcastPresenceUpdate_spec now X s.lastBroadcast hL).2)
    · rw [heq]
      exact ⟨fun hc => by simp [POut.isBroadcast] at hc, fun _ => hL⟩
  | close now conn =>
    refine ⟨fun h => ?_, fun _ => handleClose_lastBroadcast now conn s⟩
    simp [pstep] at h
  | sweep now =>
    refine ⟨fun h => ?_, fun _ => ?_⟩
    · simp [pstep] at h
    · show (cleanupPendingReconnects now (cleanupStaleConnections now s)).lastBroadcast = _
      unfold cleanupPendingReconnects cleanupStaleConnections
      rw [foldl_pendingStep_lastBroadcast, foldl_staleStep_lastBroadcast]
  | timer now uid =>
    show ((fireGraceTimer now uid s).2.any POut.isBroadcast = true →
        s.lastBroadcast + MIN_BROADCAST_INTERVAL ≤ now ∧
        (fireGraceTimer now uid s).1.lastBroadcast = now) ∧
      ((fireGraceTimer now uid s).2.any POut.isBroadcast = false →
        (fireGraceTimer now uid s).1.lastBroadcast = s.lastBroadcast)
    rcases fireGraceTimer_as_bpu now uid s with ⟨X, heq, hL⟩ | ⟨X, heq, hL⟩
    · rw [heq]
      exact ⟨fun hc => by simp at hc, fun _ => hL⟩
    · rw [heq]
      exact broadcastPresenceUpdate_spec now X s.lastBroadcast hL

theorem traceBroadcastTimes_spec (gen : Nat → String) : ∀ (es : List PEvent) (s : PState),
    (traceBroadcastTimes gen s es).Pairwise
      (fun a b => a + MIN_BROADCAST_INTERVAL ≤ b) ∧
    ∀ t ∈ traceBroadcastTimes gen s es, s.lastBroadcast + MIN_BROADCAST_INTERVAL ≤ t := by
  intro es
  induction es with
  | nil => intro s; simp [traceBroadcastTimes]
  | cons e rest ih =>
    intro s
    have hspec := pstep_broadcast_spec gen s e
    obtain ⟨ihp, ihb⟩ := ih (pstep gen s e).1
    unfold traceBroadcastTimes
    cases hany : (pstep gen s e).2.any POut.isBroadcast
    · have h2 := hspec.2 hany
      simp only [hany, Bool.false_eq_true, if_false, List.nil_append]
      refine ⟨ihp, fun t ht => ?_⟩
      have := ihb t ht
      rw [h2] at this
      exact this
    · obtain ⟨hbound, heq⟩ := hspec.1 hany
      simp only [hany, if_true, List.singleton_append]
      constructor
      · refine List.Pairwise.cons (fun b hb => ?_) ihp
        have := ihb b hb
        rw [heq] at this
        exact this
      · intro t ht
        rcases List.mem_cons.mp ht with rfl | ht'
        · exact hbound
        · have := ihb t ht'
          rw [heq] at this
          simp only [MIN_BROADCAST_INTERVAL] at this hbound ⊢
          omega

theorem pairwise_window_length_le_one (l : List Nat)
    (hp : l.Pairwise (fun a b => a + MIN_BROADCAST_INTERVAL ≤ b)) (t : Nat) :
    (l.filter (fun x => decide (t ≤ x) && decide (x < t + MIN_BROADCAST_INTERVAL))).length ≤ 1 := by
  have hp' := hp.filter (fun x => decide (t ≤ x) && decide (x < t + MIN_BROADCAST_INTERVAL))
  match hfl : l.filter (fun x => decide (t ≤ x) && decide (x < t + MIN_BROADCAST_INTERVAL)) with
  | [] => simp
  | [a] => simp
  | a :: b :: rest =>
    exfalso
    rw [hfl] at hp'
    have hab : a + MIN_BROADCAST_INTERVAL ≤ b :=
      (List.pairwise_cons.mp hp').1 b (by simp)
    have haf : a ∈ l.filter (fun x => decide (t ≤ x) && decide (x < t + MIN_BROADCAST_INTERVAL)) := by
      rw [hfl]; simp
    have hbf : b ∈ l.filter (fun x => decide (t ≤ x) && decide (x < t + MIN_BROADCAST_INTERVAL)) := by
      rw [hfl]; simp
    have ha := (List.mem_filter.mp haf).2
    have hb := (List.mem_filter.mp hbf).2
    simp only [Bool.and_eq_true, decide_eq_true_eq] at ha hb
    omega


end PresenceDO

namespace Claims

open PresenceDO in
/-- C4 (confirmed): broadcasts are throttled to the minimum inter-broadcast
interval.  For any event trace from the initial state, any window of one
interval contains at most one emitted broadcast (equivalently, the times
of emitted broadcasts are pairwise at least one interval apart), and in
both actors a flush request arriving while `now - lastBroadcast` is still
below the interval is dropped, returning the state unchanged and sending
nothing. -/
theorem claim_C4_throttle (gen : Nat → String) (events : List PEvent) (t : Nat) :
    ((traceBroadcastTimes gen pInit events).filter
      (fun x => decide (t ≤ x) && decide (x < t + MIN_BROADCAST_INTERVAL))).length ≤ 1 ∧
    (∀ (s : PState) (now : Nat), now - s.lastBroadcast < MIN_BROADCAST_INTERVAL →
      broadcastPresenceUpdate now s = (s, [])) ∧
    (∀ (g : GameSyncDO.GState) (now : Nat),
      now - g.lastBroadcast < GameSyncDO.MIN_BROADCAST_INTERVAL →
      GameSyncDO.broadcastGameState now g = (g, none)) := by
  refine ⟨pairwise_window_length_le_one _ (traceBroadcastTimes_spec gen events pInit).1 t,
    fun s now h => ?_, fun g now h => ?_⟩
  · unfold broadcastPresenceUpdate
    rw [if_pos h]
  · unfold GameSyncDO.broadcastGameState
    rw [if_pos h]

open PresenceDO in
/-- Witness for `claim_C4_throttle`: in a trace with two joins 30 ms apart
the window starting at 0 holds at most one broadcast, a presence flush
50 ms after the last broadcast is dropped, and a game-sync flush 5 ms
after the last broadcast is dropped. -/
theorem claim_C4_witness :
    ((traceBroadcastTimes (fun _ => "g") pInit
        [.join 100 "u" (some "A"), .join 130 "v" (some "B")]).filter
      (fun x => decide (100 ≤ x) && decide (x < 100 + MIN_BROADCAST_INTERVAL))).length ≤ 1 ∧
    broadcastPresenceUpdate 50 ⟨[], [], [], [], 0, [], 0⟩ = (⟨[], [], [], [], 0, [], 0⟩, []) ∧
    GameSyncDO.broadcastGameState 5 ⟨[], [], [], 0, 0, [], false, 0⟩ =
      (⟨[], [], [], 0, 0, [], false, 0⟩, none) :=
  ⟨(claim_C4_throttle (fun _ => "g")
      [.join 100 "u" (some "A"), .join 130 "v" (some "B")] 100).1,
   (claim_C4_throttle (fun _ => "g") [] 0).2.1 ⟨[], [], [], [], 0, [], 0⟩ 50 (by decide),
   (claim_C4_throttle (fun _ => "g") [] 0).2.2 ⟨[], [], [], 0, 0, [], false, 0⟩ 5 (by decide)⟩

end Claims

/-! ### C6 and C7: the stale sweep -/

namespace PresenceDO

theorem handleUserDisconnect_other (now : Nat) (k u : String) (s : PState) (hne : u ≠ k) :
    mapGet u (handleUserDisconnect now k s).presence = mapGet u s.presence ∧
    mapGet u (handleUserDisconnect now k s).pendingReconnects =
      mapGet u s.pendingReconnects := by
  unfold handleUserDisconnect
  cases h : mapGet k s.presence
  · exact ⟨rfl, rfl⟩
  · exact ⟨mapGet_mapSet_ne _ _ hne, mapGet_mapSet_ne _ _ hne⟩

theorem staleStep_other (now : Nat) (s : PState) (k u : String) (hne : u ≠ k) :
    mapGet u (staleStep now s k).presence = mapGet u s.presence ∧
    mapGet u (staleStep now s k).pendingReconnects = mapGet u s.pendingReconnects := by
  unfold staleStep
  cases h : mapGet k s.presence with
  | none => exact ⟨rfl, rfl⟩
  | some p =>
    by_cases h1 : p.isReconnecting = true
    · simp only [h1, if_true]
      trivial
    · simp only [h1, if_false]
      by_cases h2 : HEARTBEAT_TIMEOUT < now - p.lastSeen
      · simp only [if_pos h2]
        exact handleUserDisconnect_other now k u s hne
      · simp only [if_neg h2]
        trivial

theorem staleStep_marked (now : Nat) (s : PState) (k u : String)
    (q : UserPresence) (pd : PendingReconnect)
    (hq : mapGet u s.presence = some q) (hrec : q.isReconnecting = true)
    (hpd : mapGet u s.pendingReconnects = some pd) :
    mapGet u (staleStep now s k).presence = some q ∧
    mapGet u (staleStep now s k).pendingReconnects = some pd := by
  by_cases hk : k = u
  · subst hk
    unfold staleStep
    rw [hq]
    simp [hrec, hq, hpd]
  · have hne : u ≠ k := fun hh => hk hh.symm
    obtain ⟨h1, h2⟩ := staleStep_other now s k u hne
    exact ⟨h1.trans hq, h2.trans hpd⟩

theorem foldl_staleStep_marked (now : Nat) (u : String) (q : UserPresence)
    (pd : PendingReconnect) (hrec : q.isReconnecting = true) :
    ∀ (keys : List String) (s : PState),
      mapGet u s.presence = some q → mapGet u s.pendingReconnects = some pd →
      mapGet u ((keys.foldl (staleStep now) s)).presence = some q ∧
      mapGet u ((keys.foldl (staleStep now) s)).pendingReconnects = some pd := by
  intro keys
  induction keys with
  | nil => intro s h1 h2; exact ⟨h1, h2⟩
  | cons k rest ih =>
    intro s h1 h2
    obtain ⟨h1', h2'⟩ := staleStep_marked now s k u q pd h1 hrec h2
    exact ih (staleStep now s k) h1' h2'

theorem foldl_staleStep_stale_user (now : Nat) (u : String) (p : UserPresence)
    (hrec : p.isReconnecting = false) (hstale : HEARTBEAT_TIMEOUT < now - p.lastSeen) :
    ∀ (keys : List String) (s : PState), mapGet u s.presence = some p → u ∈ keys →
      mapGet u ((keys.foldl (staleStep now) s)).presence =
        some { p with isReconnecting := true } ∧
      mapGet u ((keys.foldl (staleStep now) s)).pendingReconnects =
        some ⟨u, p.username, now + RECONNECT_GRACE_PERIOD⟩ := by
  intro keys
  induction keys with
  | nil => intro s _ hmem; simp at hmem
  | cons k rest ih =>
    intro s hu hmem
    by_cases hk : k = u
    · subst hk
      have hstep : staleStep now s k = handleUserDisconnect now k s := by
        unfold staleStep
        rw [hu]
        simp [hrec, hstale]
      have hspec := handleUserDisconnect_spec now k s p hu
      have h1 : mapGet k ((staleStep now s k)).presence =
          some { p with isReconnecting := true } := by
        rw [hstep, hspec]
        exact mapGet_mapSet_self _ _ _
      have h2 : mapGet k ((staleStep now s k)).pendingReconnects =
          some ⟨k, p.username, now + RECONNECT_GRACE_PERIOD⟩ := by
        rw [hstep, hspec]
        exact mapGet_mapSet_self _ _ _
      exact foldl_staleStep_marked now k _ _ rfl rest (staleStep now s k) h1 h2
    · have hne : u ≠ k := fun hh => hk hh.symm
      obtain ⟨h1, h2⟩ := staleStep_other now s k u hne
      rcases List.mem_cons.mp hmem with h | h
      · exact absurd h.symm hk
      · exact ih (staleStep now s k) (h1.trans hu) h

theorem mapGet_none_of_not_mem_keys {β : Type} (u : String) (l : List (String × β))
    (h : u ∉ l.map Prod.fst) : mapGet u l = none := by
  induction l with
  | nil => rfl
  | cons e rest ih =>
    simp only [List.map_cons, List.mem_cons] at h
    push_neg at h
    unfold mapGet
    rw [if_neg (fun hh => h.1 hh.symm)]
    exact ih h.2

theorem mapGet_filter_stale_none {β : Type} (u : String) (v : β) (pr : String × β → Bool) :
    ∀ l : List (String × β), (l.map Prod.fst).Nodup → mapGet u l = some v →
    pr (u, v) = false → mapGet u (l.filter pr) = none := by
  intro l
  induction l with
  | nil => intro _ h; simp [mapGet] at h
  | cons e rest ih =>
    intro hnd hu hpr
    simp only [List.map_cons, List.nodup_cons] at hnd
    by_cases hk : e.1 = u
    · have hv : e.2 = v := by
        unfold mapGet at hu
        rw [if_pos hk] at hu
        exact Option.some.inj hu
      have he : e = (u, v) := by
        obtain ⟨e1, e2⟩ := e
        simp only at hk hv
        rw [hk, hv]
      have hnone : mapGet u rest = none := by
        apply mapGet_none_of_not_mem_keys
        rw [← hk]
        exact hnd.1
      rw [List.filter_cons, he, hpr]
      simp only [Bool.false_eq_true, if_false]
      exact mapGet_none_filter u pr rest hnone
    · unfold mapGet at hu
      rw [if_neg hk] at hu
      rw [List.filter_cons]
      by_cases hp : pr e
      · simp only [hp, if_true]
        unfold mapGet
        rw [if_neg hk]
        exact ih hnd.2 hu hpr
      · simp only [hp, Bool.false_eq_true, if_false]
        exact ih hnd.2 hu hpr


theorem pendingStep_preserves_none (now : Nat) (s : PState) (k u : String)
    (h1 : mapGet u s.pendingReconnects = none) (h2 : mapGet u s.presence = none) :
    mapGet u (pendingStep now s k).pendingReconnects = none ∧
    mapGet u (pendingStep now s k).presence = none := by
  unfold pendingStep
  cases h : mapGet k s.pendingReconnects with
  | none => exact ⟨h1, h2⟩
  | some pending =>
    by_cases hexp : pending.expiresAt < now
    · simp only [if_pos hexp]
      exact ⟨mapGet_none_filter _ _ _ h1, mapGet_none_filter _ _ _ h2⟩
    · simp only [if_neg hexp]
      exact ⟨h1, h2⟩

theorem foldl_pendingStep_none (now : Nat) (u : String) :
    ∀ (keys : List String) (s : PState),
      mapGet u s.pendingReconnects = none → mapGet u s.presence = none →
      mapGet u ((keys.foldl (pendingStep now) s)).pendingReconnects = none ∧
      mapGet u ((keys.foldl (pendingStep now) s)).presence = none := by
  intro keys
  induction keys with
  | nil => intro s h1 h2; exact ⟨h1, h2⟩
  | cons k rest ih =>
    intro s h1 h2
    obtain ⟨h1', h2'⟩ := pendingStep_preserves_none now s k u h1 h2
    exact ih (pendingStep now s k) h1' h2'

theorem pendingStep_other (now : Nat) (s : PState) (k u : String) (hne : u ≠ k) :
    mapGet u (pendingStep now s k).pendingReconnects = mapGet u s.pendingReconnects ∧
    mapGet u (pendingStep now s k).presence = mapGet u s.presence := by
  unfold pendingStep
  cases h : mapGet k s.pendingReconnects with
  | none => exact ⟨rfl, rfl⟩
  | some pending =>
    by_cases hexp : pending.expiresAt < now
    · simp only [if_pos hexp]
      exact ⟨mapGet_mapDel_ne _ hne, mapGet_mapDel_ne _ hne⟩
    · simp only [if_neg hexp]
      trivial

theorem foldl_pendingStep_expired (now : Nat) (u : String) :
    ∀ (keys : List String) (s : PState) (p : PendingReconnect),
      mapGet u s.pendingReconnects = some p → p.expiresAt < now → u ∈ keys →
      mapGet u ((keys.foldl (pendingStep now) s)).pendingReconnects = none ∧
      mapGet u ((keys.foldl (pendingStep now) s)).presence = none := by
  intro keys
  induction keys with
  | nil => intro s p _ _ hmem; simp at hmem
  | cons k rest ih =>
    intro s p hp hexp hmem
    by_cases hk : k = u
    · subst hk
      have hstep : pendingStep now s k =
          { s with pendingReconnects := mapDel k s.pendingReconnects
                   presence := mapDel k s.presence } := by
        unfold pendingStep
        simp [hp, hexp]
      have h1 : mapGet k ((pendingStep now s k)).pendingReconnects = none := by
        rw [hstep]
        exact mapGet_mapDel_self _ _
      have h2 : mapGet k ((pendingStep now s k)).presence = none := by
        rw [hstep]
        exact mapGet_mapDel_self _ _
      exact foldl_pendingStep_none now k rest (pendingStep now s k) h1 h2
    · have hne : u ≠ k := fun hh => hk hh.symm
      obtain ⟨hA, hB⟩ := pendingStep_other now s k u hne
      rcases List.mem_cons.mp hmem with h | h
      · exact absurd h.symm hk
      · exact ih (pendingStep now s k) p (hA.trans hp) hexp h

theorem staleStep_graceinv (now : Nat) (s : PState) (k u : String) (p : PendingReconnect)
    (hinv : ∀ q, mapGet u s.presence = some q → q.isReconnecting = true)
    (hpd : mapGet u s.pendingReconnects = some p) :
    (∀ q, mapGet u (staleStep now s k).presence = some q → q.isReconnecting = true) ∧
    mapGet u (staleStep now s k).pendingReconnects = some p := by
  by_cases hk : k = u
  · subst hk
    unfold staleStep
    cases hq : mapGet k s.presence with
    | none => exact ⟨hinv, hpd⟩
    | some q =>
      have hqr : q.isReconnecting = true := hinv q hq
      simp only [hqr, if_true]
      exact ⟨hinv, hpd⟩
  · have hne : u ≠ k := fun hh => hk hh.symm
    obtain ⟨hA, hB⟩ := staleStep_other now s k u hne
    refine ⟨fun q hq => hinv q ?_, hB.trans hpd⟩
    rw [← hA]
    exact hq

theorem foldl_staleStep_graceinv (now : Nat) (u : String) (p : PendingReconnect) :
    ∀ (keys : List String) (s : PState),
      (∀ q, mapGet u s.presence = some q → q.isReconnecting = true) →
      mapGet u s.pendingReconnects = some p →
      (∀ q, mapGet u ((keys.foldl (staleStep now) s)).presence = some q →
        q.isReconnecting = true) ∧
      mapGet u ((keys.foldl (staleStep now) s)).pendingReconnects = some p := by
  intro keys
  induction keys with
  | nil => intro s h1 h2; exact ⟨h1, h2⟩
  | cons k rest ih =>
    intro s h1 h2
    obtain ⟨h1', h2'⟩ := staleStep_graceinv now s k u p h1 h2
    exact ih (staleStep now s k) h1' h2'


theorem fireGraceTimer_expired_spec (now : Nat) (u : String) (s : PState)
    (ts : List (Nat × String)) (hti : removeEligibleTimer u now s.graceTimers = some ts)
    (hpd : (mapGet u s.pendingReconnects).isSome = true)
    (hthr : ¬ (now - s.lastBroadcast < MIN_BROADCAST_INTERVAL)) :
    fireGraceTimer now u s =
      (PState.mk (mapDel u s.presence) s.wsToUser s.usernames
        (mapDel u s.pendingReconnects) now ts s.nameCtr,
       [POut.broadcast (presenceList (PState.mk (mapDel u s.presence) s.wsToUser
         s.usernames (mapDel u s.pendingReconnects) s.lastBroadcast ts s.nameCtr))]) := by
  unfold fireGraceTimer broadcastPresenceUpdate
  simp only [hti]
  simp only [hpd]
  simp [hthr]


end PresenceDO

namespace GameSyncDO

theorem mapGet_map_none {f : String × UserGameState → String × UserGameState}
    (hf : ∀ e, (f e).1 = e.1) (u : String) :
    ∀ l : List (String × UserGameState), mapGet u l = none → mapGet u (l.map f) = none := by
  intro l
  induction l with
  | nil => intro _; rfl
  | cons e rest ih =>
    intro h
    unfold mapGet at h
    by_cases hk : e.1 = u
    · rw [if_pos hk] at h
      simp at h
    · rw [if_neg hk] at h
      simp only [List.map_cons]
      unfold mapGet
      rw [if_neg (by rw [hf e]; exact hk)]
      exact ih h

theorem broadcastGameState_mapGet_none (now : Nat) (g : GState) (u : String)
    (h : mapGet u g.gameState = none) :
    mapGet u ((broadcastGameState now g).1).gameState = none := by
  unfold broadcastGameState
  split
  · exact h
  · exact mapGet_map_none (fun e => by dsimp only; split <;> rfl) u g.gameState h

theorem cleanupInactiveUsers_removes (now : Nat) (g : GState) (u : String)
    (gu : UserGameState) (hnd : (g.gameState.map Prod.fst).Nodup)
    (hu : mapGet u g.gameState = some gu)
    (hst : PRESENCE_STALE_THRESHOLD < now - gu.lastSeen) :
    mapGet u ((cleanupInactiveUsers now g).1).gameState = none := by
  have hkept : mapGet u (g.gameState.filter (fun e =>
      !(decide (PRESENCE_STALE_THRESHOLD < now - e.2.lastSeen)))) = none := by
    apply PresenceDO.mapGet_filter_stale_none u gu _ g.gameState hnd hu
    simp [hst]
  unfold cleanupInactiveUsers
  dsimp only
  split
  · exact broadcastGameState_mapGet_none now _ u hkept
  · exact hkept


end GameSyncDO

namespace Claims

/-- C6 counterexample: in the game-sync actor, a sweep over a room with one
user whose lastSeen is 20 s stale deletes the entry outright — the store
is empty afterwards and there is no grace register at all in this variant,
refuting "transitioned to GracePending rather than deleted outright" for
the cited `cleanupInactiveUsers`. -/
theorem claim_C6_counterexample :
    mapGet "u" ((GameSyncDO.cleanupInactiveUsers 30000
      ⟨[("u", ⟨"u", "A", 0, 0, true, none, 0, "#FF6B6B", none, none, [], none, "c"⟩)],
        [], [], 0, 0, [], false, 0⟩).1).gameState = none ∧
    ((GameSyncDO.cleanupInactiveUsers 30000
      ⟨[("u", ⟨"u", "A", 0, 0, true, none, 0, "#FF6B6B", none, none, [], none, "c"⟩)],
        [], [], 0, 0, [], false, 0⟩).1).gameState = [] := by
  exact ⟨rfl, rfl⟩

/-- C6 amended (corrected): in the plain presence actor the sweep transitions
every non-grace-pending entry whose lastSeen exceeds the heartbeat timeout
to GracePending — the entry stays in the store with isReconnecting set and
a grace-register entry with deadline now + grace period is created; in the
game-sync actor `cleanupInactiveUsers` deletes stale entries outright
(there is no grace register in that variant). -/
theorem claim_C6_amended :
    (∀ (now : Nat) (s : PresenceDO.PState) (u : String) (p : PresenceDO.UserPresence),
      mapGet u s.presence = some p → p.isReconnecting = false →
      PresenceDO.HEARTBEAT_TIMEOUT < now - p.lastSeen →
      mapGet u (PresenceDO.cleanupStaleConnections now s).presence =
        some { p with isReconnecting := true } ∧
      mapGet u (PresenceDO.cleanupStaleConnections now s).pendingReconnects =
        some ⟨u, p.username, now + PresenceDO.RECONNECT_GRACE_PERIOD⟩) ∧
    (∀ (now : Nat) (g : GameSyncDO.GState) (u : String) (gu : GameSyncDO.UserGameState),
      (g.gameState.map Prod.fst).Nodup → mapGet u g.gameState = some gu →
      GameSyncDO.PRESENCE_STALE_THRESHOLD < now - gu.lastSeen →
      mapGet u ((GameSyncDO.cleanupInactiveUsers now g).1).gameState = none) := by
  constructor
  · intro now s u p hu hrec hstale
    exact PresenceDO.foldl_staleStep_stale_user now u p
      (by simp [hrec]) hstale (s.presence.map Prod.fst) s hu (mem_keys_of_mapGet hu)
  · intro now g u gu hnd hu hst
    exact GameSyncDO.cleanupInactiveUsers_removes now g u gu hnd hu hst

/-- Witness for `claim_C6_amended`: user "u" with lastSeen = 1 at sweep time
70000 is moved to grace (flag set, register entry with deadline 80000) in
the presence actor, and user "v" with lastSeen = 0 at sweep time 30000 is
deleted in the game-sync actor. -/
theorem claim_C6_witness :
    mapGet "u" (PresenceDO.cleanupStaleConnections 70000
      ⟨[("u", ⟨"u", "A", 1, 1, none, false⟩)], [], [], [], 0, [], 0⟩).presence =
      some ⟨"u", "A", 1, 1, none, true⟩ ∧
    mapGet "u" (PresenceDO.cleanupStaleConnections 70000
      ⟨[("u", ⟨"u", "A", 1, 1, none, false⟩)], [], [], [], 0, [], 0⟩).pendingReconnects =
      some ⟨"u", "A", 80000⟩ ∧
    mapGet "v" ((GameSyncDO.cleanupInactiveUsers 30000
      ⟨[("v", ⟨"v", "B", 0, 0, true, none, 0, "#FF6B6B", none, none, [], none, "c"⟩)],
        [], [], 0, 0, [], false, 0⟩).1).gameState = none :=
  ⟨(claim_C6_amended.1 70000
      ⟨[("u", ⟨"u", "A", 1, 1, none, false⟩)], [], [], [], 0, [], 0⟩ "u"
      ⟨"u", "A", 1, 1, none, false⟩ rfl rfl (by decide)).1,
   (claim_C6_amended.1 70000
      ⟨[("u", ⟨"u", "A", 1, 1, none, false⟩)], [], [], [], 0, [], 0⟩ "u"
      ⟨"u", "A", 1, 1, none, false⟩ rfl rfl (by decide)).2,
   claim_C6_amended.2 30000
      ⟨[("v", ⟨"v", "B", 0, 0, true, none, 0, "#FF6B6B", none, none, [], none, "c"⟩)],
        [], [], 0, 0, [], false, 0⟩ "v"
      ⟨"v", "B", 0, 0, true, none, 0, "#FF6B6B", none, none, [], none, "c"⟩
      (by decide) rfl (by decide)⟩

open PresenceDO in
/-- C7 counterexample: a sweep tick over a state holding an expired grace
entry for "u" (expiresAt = 400, sweep at now = 500) deletes "u" from both
the grace register and the presence store but emits NOTHING — no
broadcast is scheduled by the sweep (lastBroadcast stays 0), refuting
"a broadcast is then scheduled" for `cleanupPendingReconnects`. -/
theorem claim_C7_counterexample :
    (pstep (fun _ => "g")
      ⟨[("u", ⟨"u", "A", 1, 1, none, true⟩)], [], [], [("u", ⟨"u", "A", 400⟩)], 0,
        [(400, "u")], 0⟩ (.sweep 500)).2 = [] ∧
    mapGet "u" ((pstep (fun _ => "g")
      ⟨[("u", ⟨"u", "A", 1, 1, none, true⟩)], [], [], [("u", ⟨"u", "A", 400⟩)], 0,
        [(400, "u")], 0⟩ (.sweep 500)).1).pendingReconnects = none ∧
    mapGet "u" ((pstep (fun _ => "g")
      ⟨[("u", ⟨"u", "A", 1, 1, none, true⟩)], [], [], [("u", ⟨"u", "A", 400⟩)], 0,
        [(400, "u")], 0⟩ (.sweep 500)).1).presence = none ∧
    ((pstep (fun _ => "g")
      ⟨[("u", ⟨"u", "A", 1, 1, none, true⟩)], [], [], [("u", ⟨"u", "A", 400⟩)], 0,
        [(400, "u")], 0⟩ (.sweep 500)).1).lastBroadcast = 0 := by
  exact ⟨rfl, rfl, rfl, rfl⟩

/-- C7 amended (corrected): on a sweep tick every grace-register entry past
its expiresAt is deleted from both the register and the presence store,
but the sweep itself schedules no broadcast; the broadcast at/after expiry
is produced by the per-disconnect grace timer, which — when it fires with
the pending entry still present and the throttle open — deletes the user
from both maps and emits a broadcast whose payload omits that user. -/
theorem claim_C7_amended :
    (∀ (gen : Nat → String) (now : Nat) (s : PresenceDO.PState) (u : String)
        (p : PresenceDO.PendingReconnect),
      mapGet u s.pendingReconnects = some p → p.expiresAt < now →
      (∀ q, mapGet u s.presence = some q → q.isReconnecting = true) →
      mapGet u ((PresenceDO.pstep gen s (.sweep now)).1).pendingReconnects = none ∧
      mapGet u ((PresenceDO.pstep gen s (.sweep now)).1).presence = none ∧
      (PresenceDO.pstep gen s (.sweep now)).2 = []) ∧
    (∀ (now : Nat) (s : PresenceDO.PState) (u : String) (p : PresenceDO.PendingReconnect)
        (ts : List (Nat × String)),
      PresenceDO.removeEligibleTimer u now s.graceTimers = some ts →
      mapGet u s.pendingReconnects = some p →
      PresenceDO.MIN_BROADCAST_INTERVAL ≤ now - s.lastBroadcast →
      (∀ e ∈ s.presence, e.2.userId = e.1) →
      mapGet u ((PresenceDO.fireGraceTimer now u s).1).pendingReconnects = none ∧
      mapGet u ((PresenceDO.fireGraceTimer now u s).1).presence = none ∧
      ∃ payload, (PresenceDO.fireGraceTimer now u s).2 =
          [PresenceDO.POut.broadcast payload] ∧
        ∀ r ∈ payload, r.userId ≠ u) := by
  constructor
  · intro gen now s u p hp hexp hinv
    have hpass1 := PresenceDO.foldl_staleStep_graceinv now u p
      (s.presence.map Prod.fst) s hinv hp
    have hpass2 := PresenceDO.foldl_pendingStep_expired now u
      ((PresenceDO.cleanupStaleConnections now s).pendingReconnects.map Prod.fst)
      (PresenceDO.cleanupStaleConnections now s) p hpass1.2 hexp
      (mem_keys_of_mapGet hpass1.2)
    exact ⟨hpass2.1, hpass2.2, rfl⟩
  · intro now s u p ts hti hp hthr hcoh
    rw [PresenceDO.fireGraceTimer_expired_spec now u s ts hti
      (by rw [hp]; rfl) (Nat.not_lt.mpr hthr)]
    refine ⟨mapGet_mapDel_self _ _, mapGet_mapDel_self _ _, _, rfl, ?_⟩
    intro r hr
    have hr1 : r ∈ (mapDel u s.presence).map Prod.snd := (List.mem_filter.mp hr).1
    obtain ⟨e, he, hre⟩ := List.mem_map.mp hr1
    have he1 : e ∈ s.presence := (List.mem_filter.mp he).1
    have he2 : e.1 ≠ u := by
      have := (List.mem_filter.mp he).2
      simpa using this
    rw [← hre, hcoh e he1]
    exact he2

open PresenceDO in
/-- Witness for `claim_C7_amended` at concrete states: the sweep part with an
entry expired at 400 swept at 500, and the timer part with a due timer, an
open throttle and a second user "v" remaining in the room. -/
theorem claim_C7_witness :
    (mapGet "u" ((pstep (fun _ => "g")
      ⟨[("u", ⟨"u", "A", 1, 1, none, true⟩)], [], [], [("u", ⟨"u", "A", 400⟩)], 0,
        [(400, "u")], 0⟩ (.sweep 500)).1).pendingReconnects = none ∧
     mapGet "u" ((pstep (fun _ => "g")
      ⟨[("u", ⟨"u", "A", 1, 1, none, true⟩)], [], [], [("u", ⟨"u", "A", 400⟩)], 0,
        [(400, "u")], 0⟩ (.sweep 500)).1).presence = none ∧
     (pstep (fun _ => "g")
      ⟨[("u", ⟨"u", "A", 1, 1, none, true⟩)], [], [], [("u", ⟨"u", "A", 400⟩)], 0,
        [(400, "u")], 0⟩ (.sweep 500)).2 = []) ∧
    (mapGet "u" ((fireGraceTimer 500 "u"
      ⟨[("v", ⟨"v", "B", 1, 1, none, false⟩)], [], [], [("u", ⟨"u", "A", 400⟩)], 0,
        [(400, "u")], 0⟩).1).pendingReconnects = none ∧
     mapGet "u" ((fireGraceTimer 500 "u"
      ⟨[("v", ⟨"v", "B", 1, 1, none, false⟩)], [], [], [("u", ⟨"u", "A", 400⟩)], 0,
        [(400, "u")], 0⟩).1).presence = none ∧
     ∃ payload, (fireGraceTimer 500 "u"
      ⟨[("v", ⟨"v", "B", 1, 1, none, false⟩)], [], [], [("u", ⟨"u", "A", 400⟩)], 0,
        [(400, "u")], 0⟩).2 = [POut.broadcast payload] ∧
       ∀ r ∈ payload, r.userId ≠ "u") :=
  ⟨claim_C7_amended.1 (fun _ => "g") 500
      ⟨[("u", ⟨"u", "A", 1, 1, none, true⟩)], [], [], [("u", ⟨"u", "A", 400⟩)], 0,
        [(400, "u")], 0⟩ "u" ⟨"u", "A", 400⟩ rfl (by decide)
      (fun q hq => by cases Option.some.inj hq; rfl),
   claim_C7_amended.2 500
      ⟨[("v", ⟨"v", "B", 1, 1, none, false⟩)], [], [], [("u", ⟨"u", "A", 400⟩)], 0,
        [(400, "u")], 0⟩ "u" ⟨"u", "A", 400⟩ [] (by decide) rfl (by decide) (by decide)⟩

end Claims

end RwsdkPresence
